import Mathlib

/-!
Verification of the Codex gRPC bridge server (ext/grpc/src/bin/server.rs).

The development shallowly embeds the server's data model and operations:
pure helpers become Lean functions; effectful operations take an explicit
"world" record of outcomes for the external effects (filesystem calls,
process spawning, pipe reads, process wait) and return both a result and a
trace of events, so that ordering and resource claims can be stated.
Machine integers are modelled as Int (no overflow is reachable in the
claims considered), byte buffers as lists of naturals, and filesystem
paths as lists of path components.
-/

namespace CodexGrpc

/-- Equality of Except values is decidable when it is for both sides. -/
instance {ε α : Type} [DecidableEq ε] [DecidableEq α] :
    DecidableEq (Except ε α) := fun a b =>
  match a, b with
  | .ok x, .ok y =>
      if h : x = y then isTrue (by rw [h])
      else isFalse (fun hh => h (by injection hh))
  | .ok _, .error _ => isFalse fun hh => Except.noConfusion hh
  | .error _, .ok _ => isFalse fun hh => Except.noConfusion hh
  | .error x, .error y =>
      if h : x = y then isTrue (by rw [h])
      else isFalse (fun hh => h (by injection hh))

/-- Filesystem path, modelled as its list of components
(PathBuf in the source). -/
abbrev Path := List String

/-- Rust's PathBuf.from on a string: split into components. -/
def pathBufFrom (s : String) : Path := s.splitOn "/"

/-- Rust's PathBuf.with_file_name: drop the final component and push the
given file name (server.rs line 144: exe.with_file_name of the name
codex). -/
def with_file_name (p : Path) (name : String) : Path :=
  p.dropLast ++ [name]

/-- Rust's PathBuf.display, used in error messages. -/
def pathDisplay (p : Path) : String := String.intercalate "/" p

/-- A gRPC status error, restricted to the codes the server constructs
(tonic Status.unavailable and Status.internal). -/
inductive GStatus where
  | unavailable (msg : String)
  | internal (msg : String)
deriving DecidableEq, Repr

/-- The exit status of a terminated child process on a POSIX host:
code is Some iff the process exited normally, signal is Some iff it was
terminated by a signal (std ExitStatus with its unix extension). -/
structure ExitStatus where
  code : Option Int
  signal : Option Int
deriving DecidableEq, Repr

/-- Translation of fn exit_code (server.rs lines 216-229): the process's
own status if it terminated normally, 128 plus the signal number if it was
signal-terminated, and -1 otherwise. -/
def exit_code (status : ExitStatus) : Int :=
  match status.code with
  | some code => code
  | none =>
    match status.signal with
    | some signal => 128 + signal
    | none => -1

/-- Contents reachable through a child's pipe handle: the handle may be
absent (None after take), and reading it to the end either yields the
buffered bytes or an I/O error. -/
abbrev PipeHandle := Option (Except String (List Nat))

/-- Translation of fn read_stream (server.rs lines 231-247): an absent
stream yields an empty buffer; otherwise read_to_end either fills the
buffer or fails, and a failure is mapped to an internal status. -/
def read_stream (stream : PipeHandle) : Except GStatus (List Nat) :=
  match stream with
  | none => .ok []
  | some (.ok buffer) => .ok buffer
  | some (.error err) => .error (.internal ("failed to read stream: " ++ err))

/-- The request message of the RunCommand rpc: argument list, environment
overrides, working directory (empty means inherit) and stdin payload. -/
structure RunCommandRequest where
  args : List String
  env : List (String × String)
  cwd : String
  stdin : List Nat
deriving DecidableEq, Repr

/-- The response message of the RunCommand rpc. -/
structure RunCommandResponse where
  exit_code : Int
  stdout : List Nat
  stderr : List Nat
deriving DecidableEq, Repr

/-- The process-level environment the server consults while resolving the
executable: the value of the CODEX_GRPC_CLI_BIN variable when present, and
the outcome of std env.current_exe. -/
structure ProcessEnv where
  cliEnvVar : Option String
  currentExe : Except String Path
deriving Repr

/-- The service state (struct CodexCliService, server.rs lines 117-130):
the optional startup override path and the optional concurrency limit
the semaphore was created with. -/
structure CodexCliService where
  cli_path : Option Path
  concurrency : Option Nat
deriving DecidableEq, Repr

/-- Translation of CodexCliService.resolve_cli_path (server.rs lines
132-145): explicit override first, then the environment variable, then
the current executable's directory with the file name replaced by
codex; an internal error only when current_exe fails. -/
def resolve_cli_path (svc : CodexCliService) (penv : ProcessEnv) :
    Except GStatus Path :=
  match svc.cli_path with
  | some path => .ok path
  | none =>
    match penv.cliEnvVar with
    | some env_path => .ok (pathBufFrom env_path)
    | none =>
      match penv.currentExe with
      | .error err =>
          .error (.internal ("failed to determine current executable: " ++ err))
      | .ok exe => .ok (with_file_name exe "codex")

/-- Outcomes of the external effects one run_command call performs on the
spawned child: the spawn attempt itself, whether the stdin handle is
present, the stdin write and shutdown results, the two output pipe
handles, and the result of waiting for termination. -/
structure ChildWorld where
  spawnRes : Except String Unit
  stdinPipe : Bool
  writeRes : Except String Unit
  shutdownRes : Except String Unit
  stdoutPipe : PipeHandle
  stderrPipe : PipeHandle
  waitRes : Except String ExitStatus

/-- Observable resource events of one run_command call: obtaining the
semaphore permit, issuing the spawn call (with the program, arguments,
environment overrides and working directory passed to it), and dropping
the permit. -/
inductive Event where
  | acquire
  | spawn (program : Path) (args : List String)
      (env : List (String × String)) (cwd : Option Path)
  | release
deriving DecidableEq, Repr

/-- Mapping of child.wait (server.rs lines 197-202): a wait failure is an
internal status. -/
def wait_child (waitRes : Except String ExitStatus) : Except GStatus ExitStatus :=
  match waitRes with
  | .error err => .error (.internal ("failed to wait for process: " ++ err))
  | .ok status => .ok status

/-- Value-level combination of the three joined futures (server.rs line
204): all three results when none fails, otherwise an error. The
tie-break among simultaneous failures follows the macro's poll order; the
temporal behaviour of the join is modelled separately by try_join
below. -/
def join_results (a : Except GStatus (List Nat)) (b : Except GStatus (List Nat))
    (c : Except GStatus ExitStatus) :
    Except GStatus (List Nat × List Nat × ExitStatus) :=
  match a with
  | .error e => .error e
  | .ok stdout =>
    match b with
    | .error e => .error e
    | .ok stderr =>
      match c with
      | .error e => .error e
      | .ok status => .ok (stdout, stderr, status)

/-- Stdin feeding (server.rs lines 186-193): when the stdin handle is
present, write the payload and shut the stream down, mapping either
failure to an internal status; when absent, do nothing. -/
def stdin_phase (w : ChildWorld) : Except GStatus Unit :=
  if w.stdinPipe then
    match w.writeRes with
    | .error err => .error (.internal ("failed to write stdin: " ++ err))
    | .ok _ =>
      match w.shutdownRes with
      | .error err => .error (.internal ("failed to flush stdin: " ++ err))
      | .ok _ => .ok ()
  else .ok ()

/-- Body of run_command after permit acquisition (server.rs lines
166-213): resolve the executable, spawn it with the request's arguments,
environment and working directory, feed stdin, join the two drains and
the wait, and build the response. Every return path after the spawn call
keeps the spawn event in the trace. -/
def run_command_body (svc : CodexCliService) (penv : ProcessEnv)
    (w : ChildWorld) (input : RunCommandRequest) :
    Except GStatus RunCommandResponse × List Event :=
  match resolve_cli_path svc penv with
  | .error e => (.error e, [])
  | .ok cli_path =>
    let cwd : Option Path := if input.cwd = "" then none
      else some (pathBufFrom input.cwd)
    let spawnEv := Event.spawn cli_path input.args input.env cwd
    match w.spawnRes with
    | .error err =>
        (.error (.internal ("failed to spawn " ++ pathDisplay cli_path ++ ": " ++ err)),
         [spawnEv])
    | .ok _ =>
      match stdin_phase w with
      | .error e => (.error e, [spawnEv])
      | .ok _ =>
        match join_results (read_stream w.stdoutPipe) (read_stream w.stderrPipe)
            (wait_child w.waitRes) with
        | .error e => (.error e, [spawnEv])
        | .ok (stdout, stderr, status) =>
            (.ok { exit_code := exit_code status, stdout := stdout, stderr := stderr },
             [spawnEv])

/-- Translation of run_command (server.rs lines 150-213). The acquire
step comes first: with a configured limit the call either fails
unavailable (acquire_owned returned an error because the semaphore was
closed) or holds a permit for the whole body, the drop of the permit
being the last event on every path; without a limit there is no permit
interaction. The acquireRes argument carries the outcome of the
acquire_owned await. -/
def run_command (svc : CodexCliService) (penv : ProcessEnv) (w : ChildWorld)
    (acquireRes : Except Unit Unit) (input : RunCommandRequest) :
    Except GStatus RunCommandResponse × List Event :=
  match svc.concurrency with
  | none => run_command_body svc penv w input
  | some _ =>
    match acquireRes with
    | .error _ => (.error (.unavailable "server shutting down"), [])
    | .ok _ =>
      let (res, evs) := run_command_body svc penv w input
      (res, Event.acquire :: evs ++ [Event.release])

/-- The program component of the first spawn event of a trace, if any:
the executable a run_command call passed to Command.new. -/
def spawnedProgram (evs : List Event) : Option Path :=
  evs.findSome? fun e =>
    match e with
    | .spawn program _ _ _ => some program
    | _ => none

/-- Phase of one run_command call with respect to admission: waiting on
acquire, holding a permit and executing the spawn-and-relay body, done
(permit dropped), or refused because acquire_owned returned an error. -/
inductive CallPhase where
  | pending
  | running
  | done
  | refused
deriving DecidableEq, Repr

/-- Global state of the admission controller and shutdown coordinator:
the configured limit (None means no semaphore is created, server.rs line
125), the semaphore's available permits, whether the semaphore has been
closed, whether the cancellation token has been cancelled, and the phase
of every call that has arrived. -/
structure ServerState where
  limit : Option Nat
  avail : Nat
  semClosed : Bool
  shuttingDown : Bool
  calls : List CallPhase
deriving DecidableEq, Repr

/-- Initial server state for a configured limit: the semaphore (when
configured) starts with limit-many permits, nothing is closed or
cancelled, no call has arrived. -/
def initState (limit : Option Nat) : ServerState :=
  { limit := limit
    avail := limit.getD 0
    semClosed := false
    shuttingDown := false
    calls := [] }

/-- Atomic transitions of the admission system as the code implements
them. A call arrives while the listener still accepts; a pending call is
granted a permit when one is available and the semaphore is not closed
(or immediately when no limit is configured); acquire_owned fails only on
a closed semaphore (the map_err to unavailable at server.rs line 160); a
running call finishing returns its permit; the ctrl_c handler cancels the
token (server.rs lines 53-57 and 60). No transition closes the
semaphore: nothing in the source ever calls close on it. -/
inductive Step : ServerState → ServerState → Prop where
  | arrive (s : ServerState) :
      s.shuttingDown = false →
      Step s { s with calls := s.calls ++ [CallPhase.pending] }
  | grantLimited (s : ServerState) (i n : Nat) :
      s.limit = some n →
      s.semClosed = false →
      0 < s.avail →
      s.calls.get? i = some CallPhase.pending →
      Step s { s with avail := s.avail - 1,
                      calls := s.calls.set i CallPhase.running }
  | grantUnlimited (s : ServerState) (i : Nat) :
      s.limit = none →
      s.calls.get? i = some CallPhase.pending →
      Step s { s with calls := s.calls.set i CallPhase.running }
  | refuse (s : ServerState) (i n : Nat) :
      s.limit = some n →
      s.semClosed = true →
      s.calls.get? i = some CallPhase.pending →
      Step s { s with calls := s.calls.set i CallPhase.refused }
  | finish (s : ServerState) (i : Nat) :
      s.calls.get? i = some CallPhase.running →
      Step s { s with
        avail := if s.limit.isSome then s.avail + 1 else s.avail,
        calls := s.calls.set i CallPhase.done }
  | shutdown (s : ServerState) :
      Step s { s with shuttingDown := true }

/-- States reachable from the initial state of a given configuration. -/
def Reaches (limit : Option Nat) (s : ServerState) : Prop :=
  Relation.ReflTransGen Step (initState limit) s

/-- Number of calls currently executing their spawn-and-relay phase. -/
def runningCount (s : ServerState) : Nat :=
  s.calls.countP fun c => c == CallPhase.running

/-- The invariant of the admission system: the limit field never
changes, the semaphore is never closed (nothing in the source calls
close), and with a configured limit the available permits plus the
running calls always equal the limit. -/
def AdmInv (limit : Option Nat) (s : ServerState) : Prop :=
  s.limit = limit ∧ s.semClosed = false ∧
    ∀ n, limit = some n → s.avail + runningCount s = n

/-- State of one branch inside the three-way join: the number of polls
still needed before it completes, the result it will produce (payloads
abstracted to Unit), and whether it has already completed. -/
structure BranchSt where
  rem : Nat
  res : Except String Unit
  fin : Bool
deriving Repr

/-- One poll of one branch, as the join macro performs it: a completed
branch is skipped; an incomplete branch is polled, and if this poll
completes it the produced error, if any, is reported to the caller. -/
def pollStep (b : BranchSt) : BranchSt × Option String :=
  if b.fin then (b, none)
  else if b.rem ≤ 1 then
    match b.res with
    | .error e => ({ b with rem := 0, fin := true }, some e)
    | .ok _ => ({ b with rem := 0, fin := true }, none)
  else ({ b with rem := b.rem - 1 }, none)

/-- Joint state of the three branches passed to the join: the stdout
drain, the stderr drain, and the wait. -/
structure JoinSt where
  b1 : BranchSt
  b2 : BranchSt
  b3 : BranchSt
deriving Repr

/-- One poll of the joined future, following tokio try_join: each
incomplete branch is polled once, in order; if a branch completes with an
error the whole join returns that error immediately, without polling the
remaining branches and without waiting for them; if after the round all
three have completed, the join returns success. -/
def pollRound (s : JoinSt) : JoinSt × Option (Except String Unit) :=
  match pollStep s.b1 with
  | (c1, some e) => (⟨c1, s.b2, s.b3⟩, some (.error e))
  | (c1, none) =>
    match pollStep s.b2 with
    | (c2, some e) => (⟨c1, c2, s.b3⟩, some (.error e))
    | (c2, none) =>
      match pollStep s.b3 with
      | (c3, some e) => (⟨c1, c2, c3⟩, some (.error e))
      | (c3, none) =>
        if c1.fin && c2.fin && c3.fin then (⟨c1, c2, c3⟩, some (.ok ()))
        else (⟨c1, c2, c3⟩, none)

/-- The joined future run for a given number of rounds (the fuel bounds
the rounds; the join returns as soon as a round produces a result). -/
def try_join (fuel : Nat) (s : JoinSt) : JoinSt × Option (Except String Unit) :=
  match fuel with
  | 0 => (s, none)
  | fuel + 1 =>
    match pollRound s with
    | (s', some r) => (s', some r)
    | (s', none) => try_join fuel s'

/-- A fresh branch needing n polls and then producing r. -/
def mkBranch (n : Nat) (r : Except String Unit) : BranchSt :=
  { rem := n, res := r, fin := false }

/-- The initial join state for three fresh branches. -/
def initJoin (n1 : Nat) (r1 : Except String Unit) (n2 : Nat)
    (r2 : Except String Unit) (n3 : Nat) (r3 : Except String Unit) : JoinSt :=
  ⟨mkBranch n1 r1, mkBranch n2 r2, mkBranch n3 r3⟩

/-- A branch advanced by k rounds of uniform polling. -/
def advB (k : Nat) (b : BranchSt) : BranchSt :=
  if b.fin then b
  else { rem := b.rem - k, res := b.res, fin := decide (b.rem ≤ k) }

/-- Well-formedness of a branch state: a completed branch has no polls
left and completed successfully (an error completion ends the join at
once), an incomplete branch needs at least one poll. -/
def goodB (b : BranchSt) : Prop :=
  (b.fin = true → b.rem = 0 ∧ b.res = .ok ()) ∧ (b.fin = false → 1 ≤ b.rem)

/-- No error surfaces from this branch within k further rounds. -/
def NoErrWithin (k : Nat) (b : BranchSt) : Prop :=
  ∀ e, b.res = .error e → k < b.rem

/-- The branch has completed after k further rounds. -/
def FinishedBy (k : Nat) (b : BranchSt) : Prop :=
  b.fin = true ∨ b.rem ≤ k

/-- Filesystem and serve events of the server lifecycle: creating the
socket's parent directories, removing a stale socket file, binding the
listener, the serve loop finishing, and the cleanup guard removing the
socket file on drop. -/
inductive ServerEv where
  | createDirAll (p : Path)
  | removeStale (p : Path)
  | bindListener (p : Path)
  | serveDone
  | cleanupRemove (p : Path)
deriving DecidableEq, Repr

/-- How the serve loop ends: normal return, an error, or the future being
dropped by a forced cancellation. -/
inductive ServeOutcome where
  | ok
  | err (e : String)
  | cancelled
deriving DecidableEq, Repr

/-- Outcomes of the external effects of run_server: directory creation,
whether a file already exists at the socket path, its removal, the bind,
how serving ends, and the result of the cleanup guard's removal (which
the guard discards). -/
structure ServeWorld where
  createDirRes : Except String Unit
  fileExists : Bool
  removeRes : Except String Unit
  bindRes : Except String Unit
  serveOutcome : ServeOutcome
  cleanupRemoveRes : Except String Unit

/-- The bind call itself (server.rs lines 82-85): a failure is wrapped in
a setup error naming the path. -/
def bind_listener_phase (path : Path) (w : ServeWorld) :
    Except String Unit × List ServerEv :=
  match w.bindRes with
  | .error err =>
      (.error ("failed to bind unix socket at " ++ pathDisplay path ++
        ": " ++ err), [ServerEv.bindListener path])
  | .ok _ => (.ok (), [ServerEv.bindListener path])

/-- Stale-socket removal (server.rs lines 75-80): a pre-existing file at
the path is removed before binding; a removal failure is a setup error. -/
def remove_phase (path : Path) (w : ServeWorld) :
    Except String Unit × List ServerEv :=
  if w.fileExists then
    match w.removeRes with
    | .error err =>
        (.error ("failed to remove existing socket at " ++ pathDisplay path ++
          ": " ++ err), [ServerEv.removeStale path])
    | .ok _ =>
      let (r, evs) := bind_listener_phase path w
      (r, ServerEv.removeStale path :: evs)
  else bind_listener_phase path w

/-- The bind sequence of run_server (server.rs lines 65-86): create the
missing parent directories when the path has a non-empty parent, remove a
pre-existing file at the path, bind the listener; each failure aborts
with a setup error. -/
def bind_socket (path : Path) (w : ServeWorld) :
    Except String Unit × List ServerEv :=
  if path.dropLast = [] then remove_phase path w
  else
    match w.createDirRes with
    | .error err =>
        (.error ("failed to create parent directory for " ++
          pathDisplay path ++ ": " ++ err),
         [ServerEv.createDirAll path.dropLast])
    | .ok _ =>
      let (r, evs) := remove_phase path w
      (r, ServerEv.createDirAll path.dropLast :: evs)

/-- Translation of run_server plus the SocketCleanup drop guard
(server.rs lines 65-97 and 99-115): after a successful bind the guard is
installed, and whichever way serving ends — normal return, server error,
or the future being dropped by cancellation — the guard's drop removes
the socket file once, discarding the removal result; the guard skips
removal only for an empty path. A cancelled future produces no return
value, modelled as None. -/
def run_server (path : Path) (w : ServeWorld) :
    Option (Except String Unit) × List ServerEv :=
  match bind_socket path w with
  | (.error e, evs) => (some (.error e), evs)
  | (.ok _, evs) =>
    let cleanupEvs := if path = [] then [] else [ServerEv.cleanupRemove path]
    match w.serveOutcome with
    | .ok => (some (.ok ()), evs ++ [ServerEv.serveDone] ++ cleanupEvs)
    | .err e =>
        (some (.error ("server error: " ++ e)),
         evs ++ [ServerEv.serveDone] ++ cleanupEvs)
    | .cancelled => (none, evs ++ cleanupEvs)

/-- An example world in which every filesystem operation succeeds, a
stale socket file is present, and serving ends normally. -/
def exampleServeWorld : ServeWorld :=
  ⟨.ok (), true, .ok (), .ok (), .ok, .ok ()⟩

/-- Updating one element of a list shifts a countP total by the
difference between the old and the new element. -/
lemma countP_set_add (p : CallPhase → Bool) (l : List CallPhase) :
    ∀ (i : Nat) (a b : CallPhase), l.get? i = some a →
      (l.set i b).countP p + (if p a then 1 else 0) =
        l.countP p + (if p b then 1 else 0) := by
  induction l with
  | nil => intro i a b h; simp at h
  | cons c t ih =>
      intro i a b h
      cases i with
      | zero =>
          simp only [List.get?] at h
          cases h
          simp only [List.set, List.countP_cons]
          omega
      | succ j =>
          simp only [List.get?] at h
          have := ih j a b h
          simp only [List.set, List.countP_cons]
          omega

/-- Every transition preserves the admission invariant. -/
lemma step_preserves_inv (limit : Option Nat) (s t : ServerState)
    (hstep : Step s t) (ih : AdmInv limit s) : AdmInv limit t := by
  obtain ⟨ihlim, ihclosed, ihcount⟩ := ih
  cases hstep with
  | arrive hsd =>
      refine ⟨ihlim, ihclosed, ?_⟩
      intro n hn
      have := ihcount n hn
      simp only [runningCount, List.countP_append] at *
      simpa using this
  | grantLimited i n hlim hclosed havail hget =>
      refine ⟨ihlim, ihclosed, ?_⟩
      intro m hm
      have hcount := ihcount m hm
      have hset := countP_set_add (fun c => c == CallPhase.running)
        s.calls i CallPhase.pending CallPhase.running hget
      simp only [runningCount] at *
      simp only [show (CallPhase.pending == CallPhase.running) = false from rfl,
        show (CallPhase.running == CallPhase.running) = true from rfl] at hset
      simp at hset
      omega
  | grantUnlimited i hlim hget =>
      refine ⟨ihlim, ihclosed, ?_⟩
      intro m hm
      rw [ihlim] at hlim
      rw [hlim] at hm
      cases hm
  | refuse i n hlim hclosed hget =>
      rw [ihclosed] at hclosed
      cases hclosed
  | finish i hget =>
      refine ⟨ihlim, ihclosed, ?_⟩
      intro m hm
      have hcount := ihcount m hm
      have hset := countP_set_add (fun c => c == CallPhase.running)
        s.calls i CallPhase.running CallPhase.done hget
      simp only [show (CallPhase.running == CallPhase.running) = true from rfl,
        show (CallPhase.done == CallPhase.running) = false from rfl] at hset
      simp at hset
      have hsome : s.limit.isSome = true := by
        rw [ihlim, hm]; rfl
      simp only [runningCount] at *
      simp only [hsome, if_pos] at *
      omega
  | shutdown =>
      exact ⟨ihlim, ihclosed, fun n hn => ihcount n hn⟩

/-- Every reachable state satisfies the admission invariant. -/
lemma reaches_inv (limit : Option Nat) (s : ServerState)
    (h : Reaches limit s) : AdmInv limit s := by
  induction h with
  | refl =>
      refine ⟨rfl, rfl, ?_⟩
      intro n hn
      simp [initState, runningCount, hn]
  | tail _ hstep ih =>
      exact step_preserves_inv limit _ _ hstep ih

/-- The element at position k of k copies of a followed by b is b. -/
lemma get_replicate_append (a b : CallPhase) :
    ∀ k : Nat, (List.replicate k a ++ [b]).get? k = some b := by
  intro k
  induction k with
  | zero => rfl
  | succ j ih => simp only [List.replicate, List.cons_append, List.get?]; exact ih

/-- Setting position k of k copies of a followed by b replaces b. -/
lemma set_replicate_append (a b c : CallPhase) :
    ∀ k : Nat, (List.replicate k a ++ [b]).set k c = List.replicate k a ++ [c] := by
  intro k
  induction k with
  | zero => rfl
  | succ j ih => simp only [List.replicate, List.cons_append, List.set, List.append_eq]; rw [ih]

/-- k copies of running count as k running calls. -/
lemma countP_replicate_running (k : Nat) :
    (List.replicate k CallPhase.running).countP
      (fun c => c == CallPhase.running) = k := by
  induction k with
  | zero => rfl
  | succ j ih => simp [List.replicate, List.countP_cons, ih]

/-- With no configured limit, a state with k simultaneously running calls
is reachable, for every k. -/
lemma reach_unbounded (k : Nat) :
    Reaches none
      ⟨none, 0, false, false, List.replicate k CallPhase.running⟩ := by
  induction k with
  | zero => exact Relation.ReflTransGen.refl
  | succ j ih =>
      have h1 : Step
          ⟨none, 0, false, false, List.replicate j CallPhase.running⟩
          ⟨none, 0, false, false,
            List.replicate j CallPhase.running ++ [CallPhase.pending]⟩ :=
        Step.arrive _ rfl
      have h2 : Step
          ⟨none, 0, false, false,
            List.replicate j CallPhase.running ++ [CallPhase.pending]⟩
          ⟨none, 0, false, false,
            (List.replicate j CallPhase.running ++ [CallPhase.pending]).set j
              CallPhase.running⟩ :=
        Step.grantUnlimited _ j rfl
          (get_replicate_append CallPhase.running CallPhase.pending j)
      have h3 : (List.replicate j CallPhase.running ++ [CallPhase.pending]).set j
          CallPhase.running = List.replicate (j + 1) CallPhase.running := by
        rw [set_replicate_append, ← List.replicate_succ']
      exact Relation.ReflTransGen.tail (Relation.ReflTransGen.tail ih h1) (h3 ▸ h2)

/-- C1: for every configured concurrency limit N, at most N run_command
invocations execute their spawn-and-relay phase concurrently, each
holding a semaphore permit from before spawn until the call finishes;
when no limit is configured, a pending acquisition can always be granted
immediately and the number of concurrently running calls is unbounded. -/
theorem admission_bound_spec :
    (∀ (n : Nat) (s : ServerState), Reaches (some n) s → runningCount s ≤ n) ∧
    (∀ (s : ServerState) (i : Nat), Reaches none s →
      s.calls.get? i = some CallPhase.pending →
      Step s { s with calls := s.calls.set i CallPhase.running }) ∧
    (∀ k : Nat, ∃ s : ServerState, Reaches none s ∧ runningCount s = k) := by
  refine ⟨?_, ?_, ?_⟩
  · intro n s h
    have := (reaches_inv (some n) s h).2.2 n rfl
    omega
  · intro s i h hget
    have hlim := (reaches_inv none s h).1
    exact Step.grantUnlimited s i hlim hget
  · intro k
    refine ⟨⟨none, 0, false, false, List.replicate k CallPhase.running⟩,
      reach_unbounded k, ?_⟩
    simpa [runningCount] using countP_replicate_running k

/-- Closed instance of the admission bound: the bound holds in the
initial state of a server with limit 2, and in a reachable unlimited
state a pending call steps directly to running. -/
theorem admission_bound_spec_witness :
    runningCount (initState (some 2)) ≤ 2 ∧
    Step ⟨none, 0, false, false, [CallPhase.pending]⟩
      ⟨none, 0, false, false, [CallPhase.running]⟩ := by
  constructor
  · exact admission_bound_spec.1 2 (initState (some 2)) Relation.ReflTransGen.refl
  · exact admission_bound_spec.2.1 ⟨none, 0, false, false, [CallPhase.pending]⟩ 0
      (Relation.ReflTransGen.tail Relation.ReflTransGen.refl
        (Step.arrive (initState none) rfl)) rfl

/-- C3, divergence evidence: with limit 1, two calls arrive, the first is
granted, shutdown begins, and after the first finishes the second pending
acquire is granted and runs — the semaphore remains open throughout
because no transition of the code closes it, so the pending call proceeds
to process work instead of failing with the unavailable, shutting down
status the claim requires. -/
theorem shutdown_pending_acquire_granted :
    Reaches (some 1)
      ⟨some 1, 0, false, true, [CallPhase.done, CallPhase.running]⟩ ∧
    (⟨some 1, 0, false, true,
      [CallPhase.done, CallPhase.running]⟩ : ServerState).shuttingDown = true ∧
    (⟨some 1, 0, false, true,
      [CallPhase.done, CallPhase.running]⟩ : ServerState).calls.get? 1 =
        some CallPhase.running ∧
    (⟨some 1, 0, false, true,
      [CallPhase.done, CallPhase.running]⟩ : ServerState).semClosed = false := by
  refine ⟨?_, rfl, rfl, rfl⟩
  have h1 : Step (⟨some 1, 1, false, false, []⟩ : ServerState)
      ⟨some 1, 1, false, false, [CallPhase.pending]⟩ :=
    Step.arrive _ rfl
  have h2 : Step (⟨some 1, 1, false, false, [CallPhase.pending]⟩ : ServerState)
      ⟨some 1, 1, false, false, [CallPhase.pending, CallPhase.pending]⟩ :=
    Step.arrive _ rfl
  have h3 : Step
      (⟨some 1, 1, false, false,
        [CallPhase.pending, CallPhase.pending]⟩ : ServerState)
      ⟨some 1, 0, false, false, [CallPhase.running, CallPhase.pending]⟩ :=
    Step.grantLimited _ 0 1 rfl rfl Nat.one_pos rfl
  have h4 : Step
      (⟨some 1, 0, false, false,
        [CallPhase.running, CallPhase.pending]⟩ : ServerState)
      ⟨some 1, 0, false, true, [CallPhase.running, CallPhase.pending]⟩ :=
    Step.shutdown _
  have h5 : Step
      (⟨some 1, 0, false, true,
        [CallPhase.running, CallPhase.pending]⟩ : ServerState)
      ⟨some 1, 1, false, true, [CallPhase.done, CallPhase.pending]⟩ :=
    Step.finish _ 0 rfl
  have h6 : Step
      (⟨some 1, 1, false, true,
        [CallPhase.done, CallPhase.pending]⟩ : ServerState)
      ⟨some 1, 0, false, true, [CallPhase.done, CallPhase.running]⟩ :=
    Step.grantLimited _ 1 1 rfl rfl Nat.one_pos rfl
  exact Relation.ReflTransGen.tail
    (Relation.ReflTransGen.tail
      (Relation.ReflTransGen.tail
        (Relation.ReflTransGen.tail
          (Relation.ReflTransGen.tail
            (Relation.ReflTransGen.tail Relation.ReflTransGen.refl h1) h2) h3)
        h4) h5) h6

/-- The trace of the run_command body: empty when resolution fails,
otherwise exactly the spawn call with the resolved program and the
request's arguments, environment and working directory. -/
lemma run_command_body_trace (svc : CodexCliService) (penv : ProcessEnv)
    (w : ChildWorld) (input : RunCommandRequest) :
    (run_command_body svc penv w input).2 =
      match resolve_cli_path svc penv with
      | .error _ => []
      | .ok cli => [Event.spawn cli input.args input.env
          (if input.cwd = "" then none else some (pathBufFrom input.cwd))] := by
  unfold run_command_body
  cases hr : resolve_cli_path svc penv with
  | error e => rfl
  | ok cli =>
      simp only
      cases w.spawnRes with
      | error err => rfl
      | ok u =>
          simp only
          cases stdin_phase w with
          | error e => rfl
          | ok u =>
              simp only
              cases join_results (read_stream w.stdoutPipe)
                  (read_stream w.stderrPipe) (wait_child w.waitRes) with
              | error e => rfl
              | ok triple => rcases triple with ⟨o, e, st⟩; rfl

/-- The program of the body trace is the resolved path, when resolution
succeeds. -/
lemma spawnedProgram_body (svc : CodexCliService) (penv : ProcessEnv)
    (w : ChildWorld) (input : RunCommandRequest) :
    spawnedProgram (run_command_body svc penv w input).2 =
      match resolve_cli_path svc penv with
      | .ok cli => some cli
      | .error _ => none := by
  rw [run_command_body_trace]
  cases resolve_cli_path svc penv <;>
    simp [spawnedProgram, List.findSome?]

/-- A successful three-way join means each component succeeded with the
corresponding value. -/
lemma join_results_ok (a b : Except GStatus (List Nat))
    (c : Except GStatus ExitStatus) (o e : List Nat) (st : ExitStatus)
    (h : join_results a b c = .ok (o, e, st)) :
    a = .ok o ∧ b = .ok e ∧ c = .ok st := by
  unfold join_results at h
  cases a with
  | error x => cases h
  | ok x =>
      cases b with
      | error y => cases h
      | ok y =>
          cases c with
          | error z => cases h
          | ok z =>
              injection h with h
              injection h with h1 h
              injection h with h2 h3
              subst h1; subst h2; subst h3
              exact ⟨rfl, rfl, rfl⟩

/-- Unfolding of run_command when no limit is configured. -/
lemma run_command_none (svc : CodexCliService) (penv : ProcessEnv)
    (w : ChildWorld) (acq : Except Unit Unit) (input : RunCommandRequest)
    (h : svc.concurrency = none) :
    run_command svc penv w acq input = run_command_body svc penv w input := by
  rw [run_command.eq_def, h]

/-- Unfolding of run_command when the acquire failed. -/
lemma run_command_refused (svc : CodexCliService) (penv : ProcessEnv)
    (w : ChildWorld) (input : RunCommandRequest) (n : Nat) (u : Unit)
    (h : svc.concurrency = some n) :
    run_command svc penv w (Except.error u) input =
      (Except.error (GStatus.unavailable "server shutting down"), []) := by
  rw [run_command.eq_def, h]

/-- Unfolding of run_command when the permit was granted. -/
lemma run_command_granted (svc : CodexCliService) (penv : ProcessEnv)
    (w : ChildWorld) (input : RunCommandRequest) (n : Nat)
    (h : svc.concurrency = some n) :
    run_command svc penv w (Except.ok ()) input =
      ((run_command_body svc penv w input).1,
        Event.acquire :: (run_command_body svc penv w input).2 ++
          [Event.release]) := by
  rw [run_command.eq_def, h]

/-- C2: the response exit code is the process's own status on normal
termination, 128 plus the signal number on signal termination, and -1
when neither is determinable; in particular a normal exit with code 3
yields 3 and death by signal 9 yields 137. -/
theorem exit_code_spec :
    (∀ (c : Int) (sig : Option Int), exit_code ⟨some c, sig⟩ = c) ∧
    (∀ sig : Int, exit_code ⟨none, some sig⟩ = 128 + sig) ∧
    exit_code ⟨none, none⟩ = -1 ∧
    exit_code ⟨some 3, none⟩ = 3 ∧
    exit_code ⟨none, some 9⟩ = 137 := by
  refine ⟨fun c sig => rfl, fun sig => rfl, rfl, rfl, by decide⟩

/-- C9: an absent output pipe handle yields empty captured bytes, not an
error: read_stream of a missing stream returns an empty buffer, and a
successful run_command response carries empty bytes for whichever of the
two streams was absent. -/
theorem read_stream_missing_spec :
    read_stream none = Except.ok [] ∧
    ∀ (svc : CodexCliService) (penv : ProcessEnv) (w : ChildWorld)
      (acq : Except Unit Unit) (input : RunCommandRequest)
      (resp : RunCommandResponse),
      (run_command svc penv w acq input).1 = Except.ok resp →
      (w.stdoutPipe = none → resp.stdout = []) ∧
      (w.stderrPipe = none → resp.stderr = []) := by
  refine ⟨rfl, ?_⟩
  intro svc penv w acq input resp hok
  have hbody : (run_command_body svc penv w input).1 = Except.ok resp := by
    cases hc : svc.concurrency with
    | none => rw [run_command_none svc penv w acq input hc] at hok; exact hok
    | some n =>
        cases acq with
        | error u =>
            rw [run_command_refused svc penv w input n u hc] at hok
            cases hok
        | ok u =>
            cases u
            rw [run_command_granted svc penv w input n hc] at hok
            exact hok
  unfold run_command_body at hbody
  cases hr : resolve_cli_path svc penv with
  | error e => rw [hr] at hbody; cases hbody
  | ok cli =>
      rw [hr] at hbody
      simp only at hbody
      cases hsp : w.spawnRes with
      | error err => rw [hsp] at hbody; cases hbody
      | ok u =>
          rw [hsp] at hbody
          simp only at hbody
          cases hsi : stdin_phase w with
          | error e => rw [hsi] at hbody; cases hbody
          | ok u =>
              rw [hsi] at hbody
              simp only at hbody
              cases hj : join_results (read_stream w.stdoutPipe)
                  (read_stream w.stderrPipe) (wait_child w.waitRes) with
              | error e => rw [hj] at hbody; cases hbody
              | ok triple =>
                  rcases triple with ⟨o, e, st⟩
                  rw [hj] at hbody
                  simp only at hbody
                  injection hbody with hbody
                  obtain ⟨ho, he, _⟩ := join_results_ok _ _ _ _ _ _ hj
                  constructor
                  · intro hnone
                    rw [hnone] at ho
                    injection ho with ho
                    rw [← hbody]
                    exact ho.symm
                  · intro hnone
                    rw [hnone] at he
                    injection he with he
                    rw [← hbody]
                    exact he.symm

/-- Closed instance of the missing-pipe behaviour: a run_command call
whose child exposes neither output pipe succeeds with empty stdout and
stderr. -/
theorem read_stream_missing_spec_witness :
    (RunCommandResponse.mk 0 [] []).stdout = [] ∧
    (RunCommandResponse.mk 0 [] []).stderr = [] := by
  have h := read_stream_missing_spec.2
    ⟨some ["codex"], none⟩ ⟨none, Except.error "e"⟩
    ⟨Except.ok (), false, Except.ok (), Except.ok (), none, none,
      Except.ok ⟨some 0, none⟩⟩
    (Except.ok ()) ⟨[], [], "", []⟩ ⟨0, [], []⟩ rfl
  exact ⟨h.1 rfl, h.2 rfl⟩

/-- C8: executable resolution precedence is the startup override, then
the environment variable, then the bridge executable's directory with the
file name codex; resolution fails, with an internal error, exactly when
none of the three is available. -/
theorem resolve_precedence_spec :
    ∀ (svc : CodexCliService) (penv : ProcessEnv),
      (∀ p, svc.cli_path = some p → resolve_cli_path svc penv = .ok p) ∧
      (svc.cli_path = none → ∀ s, penv.cliEnvVar = some s →
        resolve_cli_path svc penv = .ok (pathBufFrom s)) ∧
      (svc.cli_path = none → penv.cliEnvVar = none →
        ∀ exe, penv.currentExe = .ok exe →
          resolve_cli_path svc penv = .ok (with_file_name exe "codex")) ∧
      ((∃ msg, resolve_cli_path svc penv = .error (.internal msg)) ↔
        svc.cli_path = none ∧ penv.cliEnvVar = none ∧
          ∃ err, penv.currentExe = .error err) := by
  intro svc penv
  refine ⟨?_, ?_, ?_, ?_⟩
  · intro p hp; simp [resolve_cli_path, hp]
  · intro hp s hs; simp [resolve_cli_path, hp, hs]
  · intro hp hs exe hexe; simp [resolve_cli_path, hp, hs, hexe]
  · constructor
    · rintro ⟨msg, hmsg⟩
      unfold resolve_cli_path at hmsg
      cases hp : svc.cli_path with
      | some p => rw [hp] at hmsg; cases hmsg
      | none =>
          rw [hp] at hmsg
          cases hs : penv.cliEnvVar with
          | some s => rw [hs] at hmsg; cases hmsg
          | none =>
              rw [hs] at hmsg
              cases hexe : penv.currentExe with
              | error err => exact ⟨rfl, rfl, err, rfl⟩
              | ok exe => rw [hexe] at hmsg; cases hmsg
    · rintro ⟨hp, hs, err, herr⟩
      exact ⟨"failed to determine current executable: " ++ err,
        by simp [resolve_cli_path, hp, hs, herr]⟩

/-- Closed instances of the resolution precedence: an explicit override
wins over a set environment variable, the variable wins when no override
is set, and with neither the bridge directory with the name codex is
used. -/
theorem resolve_precedence_spec_witness :
    resolve_cli_path ⟨some ["", "opt", "codex"], none⟩
      ⟨some "/env/codex", Except.error "e"⟩ = .ok ["", "opt", "codex"] ∧
    resolve_cli_path ⟨none, none⟩ ⟨some "/env/codex", Except.error "e"⟩ =
      .ok (pathBufFrom "/env/codex") ∧
    resolve_cli_path ⟨none, none⟩ ⟨none, Except.ok ["", "usr", "bridge"]⟩ =
      .ok (with_file_name ["", "usr", "bridge"] "codex") := by
  refine ⟨(resolve_precedence_spec _ _).1 _ rfl,
    (resolve_precedence_spec _ _).2.1 rfl _ rfl,
    (resolve_precedence_spec _ _).2.2.1 rfl rfl _ rfl⟩

/-- C7: with a configured limit and a granted permit, the trace of every
run_command call starts with the acquire, ends with the release, and
contains neither in between: the slot is obtained before the spawn call
and dropped after everything else on every path, the world being
universally quantified over success, spawn failure, stdin failure and
pipe or wait failure. -/
theorem permit_bracket_spec :
    ∀ (svc : CodexCliService) (penv : ProcessEnv) (w : ChildWorld)
      (input : RunCommandRequest) (n : Nat),
      svc.concurrency = some n →
      ∃ evs, (run_command svc penv w (Except.ok ()) input).2 =
          Event.acquire :: evs ++ [Event.release] ∧
        ∀ e ∈ evs, e ≠ Event.acquire ∧ e ≠ Event.release := by
  intro svc penv w input n hn
  rcases hb : run_command_body svc penv w input with ⟨res, evs⟩
  refine ⟨evs, ?_, ?_⟩
  · rw [run_command_granted svc penv w input n hn, hb]
  · intro e he
    have ht := run_command_body_trace svc penv w input
    rw [hb] at ht
    simp only at ht
    rw [ht] at he
    cases hr : resolve_cli_path svc penv with
    | error x => rw [hr] at he; cases he
    | ok cli =>
        rw [hr] at he
        simp only [List.mem_singleton] at he
        subst he
        exact ⟨fun hc => Event.noConfusion hc, fun hc => Event.noConfusion hc⟩

/-- Closed instance of the permit bracket on a successful call with
limit 1. -/
theorem permit_bracket_spec_witness :
    ∃ evs, (run_command ⟨some ["codex"], some 1⟩ ⟨none, Except.error "e"⟩
        ⟨Except.ok (), true, Except.ok (), Except.ok (),
          some (Except.ok [104, 105]), some (Except.ok []),
          Except.ok ⟨some 0, none⟩⟩
        (Except.ok ()) ⟨["exec"], [], "", [10]⟩).2 =
      Event.acquire :: evs ++ [Event.release] ∧
      ∀ e ∈ evs, e ≠ Event.acquire ∧ e ≠ Event.release :=
  permit_bracket_spec _ _ _ _ 1 rfl

/-- C10: the program passed to the spawn call does not depend on any
field of the request: two run_command calls under the same service
configuration, process environment and world spawn the same program. -/
theorem spawn_program_request_independent :
    ∀ (svc : CodexCliService) (penv : ProcessEnv) (w : ChildWorld)
      (acq : Except Unit Unit) (r1 r2 : RunCommandRequest),
      spawnedProgram (run_command svc penv w acq r1).2 =
        spawnedProgram (run_command svc penv w acq r2).2 := by
  intro svc penv w acq r1 r2
  cases hc : svc.concurrency with
  | none =>
      rw [run_command_none svc penv w acq r1 hc,
        run_command_none svc penv w acq r2 hc]
      rw [spawnedProgram_body, spawnedProgram_body]
  | some n =>
      cases acq with
      | error u =>
          rw [run_command_refused svc penv w r1 n u hc,
            run_command_refused svc penv w r2 n u hc]
      | ok u =>
          cases u
          rw [run_command_granted svc penv w r1 n hc,
            run_command_granted svc penv w r2 n hc]
          rw [run_command_body_trace svc penv w r1,
            run_command_body_trace svc penv w r2]
          cases resolve_cli_path svc penv <;>
            simp [spawnedProgram, List.findSome?]

/-- Advancing a well-formed branch by zero rounds changes nothing. -/
lemma advB_zero (b : BranchSt) (hg : goodB b) : advB 0 b = b := by
  rcases b with ⟨rem, res, fin⟩
  cases fin with
  | true => simp [advB]
  | false =>
      have h1 : 1 ≤ rem := hg.2 rfl
      have hd : decide (rem ≤ 0) = false := decide_eq_false (by omega)
      simp [advB, hd]
      omega

/-- Advancing one round and then k rounds is advancing k+1 rounds. -/
lemma advB_advB (k : Nat) (b : BranchSt) : advB k (advB 1 b) = advB (k + 1) b := by
  rcases b with ⟨rem, res, fin⟩
  cases fin with
  | true => simp [advB]
  | false =>
      by_cases h1 : rem ≤ 1
      · have hd1 : decide (rem ≤ 1) = true := decide_eq_true h1
        have hd2 : decide (rem ≤ k + 1) = true := decide_eq_true (by omega)
        simp [advB, hd1, hd2]
        omega
      · have hd1 : decide (rem ≤ 1) = false := decide_eq_false h1
        have hd2 : decide (rem - 1 ≤ k) = decide (rem ≤ k + 1) :=
          decide_eq_decide.mpr (by omega)
        simp [advB, hd1, hd2]
        omega

/-- A branch advanced one round is complete exactly when it was due to
finish within one round. -/
lemma advB_one_fin (b : BranchSt) :
    ((advB 1 b).fin = true) ↔ FinishedBy 1 b := by
  rcases b with ⟨rem, res, fin⟩
  cases fin <;> simp [advB, FinishedBy]

/-- Completion within j rounds implies completion within k ≥ j rounds. -/
lemma FinishedBy.mono {j k : Nat} (h : j ≤ k) {b : BranchSt}
    (hf : FinishedBy j b) : FinishedBy k b := by
  rcases hf with hf | hf
  · exact Or.inl hf
  · exact Or.inr (le_trans hf h)

/-- A poll of a branch that neither is complete nor errs this round
advances it by one round. -/
lemma pollStep_eq (b : BranchSt) (hg : goodB b)
    (hne : ∀ e, b.res = .error e → 1 < b.rem) :
    pollStep b = (advB 1 b, none) := by
  rcases b with ⟨rem, res, fin⟩
  cases fin with
  | true => simp [pollStep, advB]
  | false =>
      have h1 : 1 ≤ rem := hg.2 rfl
      by_cases hr : rem ≤ 1
      · cases res with
        | error e =>
            exfalso
            have h2 : 1 < rem := hne e rfl
            omega
        | ok u =>
            cases u
            have hd : decide (rem ≤ 1) = true := decide_eq_true hr
            simp [pollStep, advB, hr, hd]
      · have hd : decide (rem ≤ 1) = false := decide_eq_false hr
        simp [pollStep, advB, hr, hd]

/-- A round in which no branch completes with an error and after which
not all three are complete polls every incomplete branch exactly once and
produces no result yet. -/
lemma pollRound_eq (s : JoinSt) (hg1 : goodB s.b1) (hg2 : goodB s.b2)
    (hg3 : goodB s.b3)
    (hne1 : ∀ e, s.b1.res = .error e → 1 < s.b1.rem)
    (hne2 : ∀ e, s.b2.res = .error e → 1 < s.b2.rem)
    (hne3 : ∀ e, s.b3.res = .error e → 1 < s.b3.rem)
    (hnotall : ¬(FinishedBy 1 s.b1 ∧ FinishedBy 1 s.b2 ∧ FinishedBy 1 s.b3)) :
    pollRound s = (⟨advB 1 s.b1, advB 1 s.b2, advB 1 s.b3⟩, none) := by
  have h1 := pollStep_eq s.b1 hg1 hne1
  have h2 := pollStep_eq s.b2 hg2 hne2
  have h3 := pollStep_eq s.b3 hg3 hne3
  have hcond : ((advB 1 s.b1).fin && (advB 1 s.b2).fin && (advB 1 s.b3).fin)
      ≠ true := by
    intro hc
    simp only [Bool.and_eq_true] at hc
    exact hnotall ⟨(advB_one_fin s.b1).mp hc.1.1, (advB_one_fin s.b2).mp hc.1.2,
      (advB_one_fin s.b3).mp hc.2⟩
  unfold pollRound
  rw [h1, h2, h3]
  simp only [if_neg hcond]

/-- A branch that survives a round in good shape stays in good shape. -/
lemma goodB_advB_one (b : BranchSt) (hg : goodB b)
    (hne : ∀ e, b.res = .error e → 1 < b.rem) : goodB (advB 1 b) := by
  rcases b with ⟨rem, res, fin⟩
  cases fin with
  | true => exact hg
  | false =>
      have h1 : 1 ≤ rem := hg.2 rfl
      by_cases hr : rem ≤ 1
      · cases res with
        | error e =>
            exfalso
            have h2 : 1 < rem := hne e rfl
            omega
        | ok u =>
            cases u
            have hd : decide (rem ≤ 1) = true := decide_eq_true hr
            refine ⟨fun _ => ⟨by simp [advB, hd]; omega, by simp [advB, hd]⟩,
              fun hf => ?_⟩
            simp [advB, hd] at hf
      · have hd : decide (rem ≤ 1) = false := decide_eq_false hr
        refine ⟨fun hf => ?_, fun _ => ?_⟩
        · simp [advB, hd] at hf
        · simp [advB, hd]
          omega

/-- No error within k+1 rounds means no error within k rounds after one
round of polling. -/
lemma noErr_advB_one (k : Nat) (b : BranchSt) (hg : goodB b)
    (h : NoErrWithin (k + 1) b) : NoErrWithin k (advB 1 b) := by
  rcases b with ⟨rem, res, fin⟩
  cases fin with
  | true =>
      intro e he
      have h2 : k + 1 < rem := h e he
      show k < rem
      omega
  | false =>
      intro e he
      have hres : res = .error e := he
      have h2 : k + 1 < rem := h e hres
      show k < rem - 1
      omega

/-- Completion within k rounds after one round of polling implies
completion within k+1 rounds. -/
lemma finishedBy_advB_one (k : Nat) (b : BranchSt)
    (h : FinishedBy k (advB 1 b)) : FinishedBy (k + 1) b := by
  rcases b with ⟨rem, res, fin⟩
  cases fin with
  | true => exact Or.inl rfl
  | false =>
      rcases h with h | h
      · have h2 : decide (rem ≤ 1) = true := h
        simp only [decide_eq_true_eq] at h2
        exact Or.inr (show rem ≤ k + 1 by omega)
      · have h2 : rem - 1 ≤ k := h
        exact Or.inr (show rem ≤ k + 1 by omega)

/-- Lockstep progress of the join: as long as no branch errs and not all
three are due, k rounds of the join advance every branch by k polls —
the three branches progress concurrently, none waiting for another to
finish — and no result is produced. -/
lemma try_join_none (k : Nat) :
    ∀ s : JoinSt, goodB s.b1 → goodB s.b2 → goodB s.b3 →
      NoErrWithin k s.b1 → NoErrWithin k s.b2 → NoErrWithin k s.b3 →
      ¬(FinishedBy k s.b1 ∧ FinishedBy k s.b2 ∧ FinishedBy k s.b3) →
      try_join k s = (⟨advB k s.b1, advB k s.b2, advB k s.b3⟩, none) := by
  induction k with
  | zero =>
      intro s hg1 hg2 hg3 _ _ _ _
      rw [advB_zero _ hg1, advB_zero _ hg2, advB_zero _ hg3]
      rfl
  | succ k ih =>
      intro s hg1 hg2 hg3 hne1 hne2 hne3 hnotall
      have hne1k : ∀ e, s.b1.res = .error e → 1 < s.b1.rem :=
        fun e he => lt_of_le_of_lt (by omega) (hne1 e he)
      have hne2k : ∀ e, s.b2.res = .error e → 1 < s.b2.rem :=
        fun e he => lt_of_le_of_lt (by omega) (hne2 e he)
      have hne3k : ∀ e, s.b3.res = .error e → 1 < s.b3.rem :=
        fun e he => lt_of_le_of_lt (by omega) (hne3 e he)
      have hnotall1 : ¬(FinishedBy 1 s.b1 ∧ FinishedBy 1 s.b2 ∧
          FinishedBy 1 s.b3) := by
        intro hc
        exact hnotall ⟨hc.1.mono (by omega), hc.2.1.mono (by omega),
          hc.2.2.mono (by omega)⟩
      have hround := pollRound_eq s hg1 hg2 hg3 hne1k hne2k hne3k hnotall1
      have hstep : try_join (k + 1) s =
          try_join k ⟨advB 1 s.b1, advB 1 s.b2, advB 1 s.b3⟩ := by
        show (match pollRound s with
          | (s', some r) => (s', some r)
          | (s', none) => try_join k s') = _
        rw [hround]
      rw [hstep]
      have happ := ih ⟨advB 1 s.b1, advB 1 s.b2, advB 1 s.b3⟩
        (goodB_advB_one s.b1 hg1 hne1k) (goodB_advB_one s.b2 hg2 hne2k)
        (goodB_advB_one s.b3 hg3 hne3k)
        (noErr_advB_one k s.b1 hg1 hne1) (noErr_advB_one k s.b2 hg2 hne2)
        (noErr_advB_one k s.b3 hg3 hne3)
        (by
          intro hc
          exact hnotall ⟨finishedBy_advB_one k s.b1 hc.1,
            finishedBy_advB_one k s.b2 hc.2.1,
            finishedBy_advB_one k s.b3 hc.2.2⟩)
      rw [happ]
      rw [show advB k (advB 1 s.b1) = advB (k + 1) s.b1 from advB_advB k s.b1,
        show advB k (advB 1 s.b2) = advB (k + 1) s.b2 from advB_advB k s.b2,
        show advB k (advB 1 s.b3) = advB (k + 1) s.b3 from advB_advB k s.b3]

/-- Fuel splitting: if a rounds produce no result, running a+m rounds is
running m rounds from the reached state. -/
lemma try_join_split (a : Nat) :
    ∀ (m : Nat) (s t : JoinSt), try_join a s = (t, none) →
      try_join (a + m) s = try_join m t := by
  induction a with
  | zero =>
      intro m s t h
      have h1 : s = t := congrArg Prod.fst h
      rw [Nat.zero_add, h1]
  | succ a ih =>
      intro m s t h
      cases hr : pollRound s with
      | mk u r =>
        cases r with
        | some x =>
            have he : try_join (a + 1) s = (u, some x) := by
              show (match pollRound s with
                | (s', some r) => (s', some r)
                | (s', none) => try_join a s') = _
              rw [hr]
            rw [he] at h
            have := congrArg Prod.snd h
            simp at this
        | none =>
            have he : try_join (a + 1) s = try_join a u := by
              show (match pollRound s with
                | (s', some r) => (s', some r)
                | (s', none) => try_join a s') = _
              rw [hr]
            rw [he] at h
            have hfu : a + 1 + m = (a + m) + 1 := by omega
            rw [hfu]
            have he2 : try_join ((a + m) + 1) s = try_join (a + m) u := by
              show (match pollRound s with
                | (s', some r) => (s', some r)
                | (s', none) => try_join (a + m) s') = _
              rw [hr]
            rw [he2]
            exact ih m u t h

/-- A round that produces a result ends the join, whatever fuel is
left. -/
lemma try_join_round_some (m : Nat) (s t : JoinSt) (r : Except String Unit)
    (h : pollRound s = (t, some r)) : try_join (m + 1) s = (t, some r) := by
  show (match pollRound s with
    | (s', some r) => (s', some r)
    | (s', none) => try_join m s') = _
  rw [h]

/-- The last poll of a branch that succeeds by round k+1 completes it. -/
lemma pollStep_advB_ok (n k : Nat) (hnk : n ≤ k + 1) :
    pollStep (advB k ⟨n, .ok (), false⟩) = (⟨0, .ok (), true⟩, none) := by
  by_cases h : n ≤ k
  · have hd : decide (n ≤ k) = true := decide_eq_true h
    have hr : n - k = 0 := by omega
    simp [advB, pollStep, hd, hr]
  · have hd : decide (n ≤ k) = false := decide_eq_false h
    have hr : n - k = 1 := by omega
    simp [advB, pollStep, hd, hr]

/-- A fresh branch needing at least one poll is well formed. -/
lemma goodB_mkBranch (n : Nat) (r : Except String Unit) (h : 1 ≤ n) :
    goodB (mkBranch n r) := by
  refine ⟨fun hf => ?_, fun _ => h⟩
  exact absurd hf (by simp [mkBranch])

/-- Lockstep form of the join on fresh branches: while no branch errs
within k rounds and not all three are due by round k, every branch has
been polled exactly k times after k rounds. -/
lemma join_lockstep (n1 n2 n3 k : Nat) (r1 r2 r3 : Except String Unit)
    (h1 : 1 ≤ n1) (h2 : 1 ≤ n2) (h3 : 1 ≤ n3)
    (hne1 : ∀ e, r1 = .error e → k < n1)
    (hne2 : ∀ e, r2 = .error e → k < n2)
    (hne3 : ∀ e, r3 = .error e → k < n3)
    (hnotall : ¬(n1 ≤ k ∧ n2 ≤ k ∧ n3 ≤ k)) :
    try_join k (initJoin n1 r1 n2 r2 n3 r3) =
      (⟨⟨n1 - k, r1, decide (n1 ≤ k)⟩, ⟨n2 - k, r2, decide (n2 ≤ k)⟩,
        ⟨n3 - k, r3, decide (n3 ≤ k)⟩⟩, none) := by
  have hfin : ∀ n (r : Except String Unit), FinishedBy k (mkBranch n r) →
      n ≤ k := by
    intro n r hf
    rcases hf with hf | hf
    · exact absurd hf (by simp [mkBranch])
    · exact hf
  exact try_join_none k (initJoin n1 r1 n2 r2 n3 r3)
    (goodB_mkBranch n1 r1 h1) (goodB_mkBranch n2 r2 h2)
    (goodB_mkBranch n3 r3 h3)
    hne1 hne2 hne3
    (fun hc => hnotall ⟨hfin n1 r1 hc.1, hfin n2 r2 hc.2.1, hfin n3 r3 hc.2.2⟩)

/-- When all three branches succeed, the join completes in exactly as
many rounds as the slowest branch needs, with all three finished. -/
lemma join_all_ok (n1 n2 n3 : Nat) (h1 : 1 ≤ n1) (h2 : 1 ≤ n2)
    (h3 : 1 ≤ n3) :
    try_join (max n1 (max n2 n3))
        (initJoin n1 (.ok ()) n2 (.ok ()) n3 (.ok ())) =
      (⟨⟨0, .ok (), true⟩, ⟨0, .ok (), true⟩, ⟨0, .ok (), true⟩⟩,
        some (.ok ())) := by
  obtain ⟨M, hM⟩ : ∃ M, max n1 (max n2 n3) = M := ⟨_, rfl⟩
  have hn1 : n1 ≤ M := hM ▸ le_max_left _ _
  have hn2 : n2 ≤ M := hM ▸ le_trans (le_max_left _ _) (le_max_right _ _)
  have hn3 : n3 ≤ M := hM ▸ le_trans (le_max_right _ _) (le_max_right _ _)
  have hMpos : 1 ≤ M := le_trans h1 hn1
  have hnotall : ¬(n1 ≤ M - 1 ∧ n2 ≤ M - 1 ∧ n3 ≤ M - 1) := by
    intro hc
    have : max n1 (max n2 n3) ≤ M - 1 :=
      max_le hc.1 (max_le hc.2.1 hc.2.2)
    omega
  have hA := join_lockstep n1 n2 n3 (M - 1) (.ok ()) (.ok ()) (.ok ())
    h1 h2 h3 (fun e he => nomatch he) (fun e he => nomatch he)
    (fun e he => nomatch he) hnotall
  have hadv : ∀ n (r : Except String Unit),
      advB (M - 1) (mkBranch n r) =
        ⟨n - (M - 1), r, decide (n ≤ M - 1)⟩ := by
    intro n r
    simp [advB, mkBranch]
  have hp1 : pollStep ⟨n1 - (M - 1), Except.ok (), decide (n1 ≤ M - 1)⟩ =
      (⟨0, Except.ok (), true⟩, none) := by
    rw [← hadv n1 (Except.ok ())]
    exact pollStep_advB_ok n1 (M - 1) (by omega)
  have hp2 : pollStep ⟨n2 - (M - 1), Except.ok (), decide (n2 ≤ M - 1)⟩ =
      (⟨0, Except.ok (), true⟩, none) := by
    rw [← hadv n2 (Except.ok ())]
    exact pollStep_advB_ok n2 (M - 1) (by omega)
  have hp3 : pollStep ⟨n3 - (M - 1), Except.ok (), decide (n3 ≤ M - 1)⟩ =
      (⟨0, Except.ok (), true⟩, none) := by
    rw [← hadv n3 (Except.ok ())]
    exact pollStep_advB_ok n3 (M - 1) (by omega)
  have hround : pollRound
      ⟨⟨n1 - (M - 1), Except.ok (), decide (n1 ≤ M - 1)⟩,
       ⟨n2 - (M - 1), Except.ok (), decide (n2 ≤ M - 1)⟩,
       ⟨n3 - (M - 1), Except.ok (), decide (n3 ≤ M - 1)⟩⟩ =
      (⟨⟨0, .ok (), true⟩, ⟨0, .ok (), true⟩, ⟨0, .ok (), true⟩⟩,
        some (.ok ())) := by
    simp only [pollRound, hp1, hp2, hp3]
    rfl
  rw [hM, show M = (M - 1) + 1 from by omega]
  rw [try_join_split (M - 1) 1 _ _ hA]
  rw [try_join_round_some 0 _ _ _ hround]

/-- When the wait branch fails first (its polls run out strictly before
the stdout drain's and no later than the stderr drain's), the join
returns the wait error in exactly that round, however much fuel remains,
and the stdout drain is left unfinished: it is dropped, not drained. -/
lemma join_first_error (n1 n2 n3 m : Nat) (e : String) (h3 : 1 ≤ n3)
    (h13 : n3 < n1) (h23 : n3 ≤ n2) :
    (try_join (n3 + m) (initJoin n1 (.ok ()) n2 (.ok ()) n3 (.error e))).2 =
        some (.error e) ∧
    (try_join (n3 + m) (initJoin n1 (.ok ()) n2 (.ok ()) n3 (.error e))).1.b1 =
        ⟨n1 - n3, .ok (), false⟩ := by
  have h1 : 1 ≤ n1 := by omega
  have h2 : 1 ≤ n2 := by omega
  have hA := join_lockstep n1 n2 n3 (n3 - 1) (.ok ()) (.ok ()) (.error e)
    h1 h2 h3 (fun e' he' => nomatch he') (fun e' he' => nomatch he')
    (fun e' _ => by omega) (by intro hc; exact absurd hc.1 (by omega))
  have hd1 : decide (n1 ≤ n3 - 1) = false := decide_eq_false (by omega)
  have hd3 : decide (n3 ≤ n3 - 1) = false := decide_eq_false (by omega)
  have hr3 : n3 - (n3 - 1) = 1 := by omega
  rw [hd1, hd3, hr3] at hA
  have hx : ¬(n1 - (n3 - 1) ≤ 1) := by omega
  have hp1 : pollStep ⟨n1 - (n3 - 1), Except.ok (), false⟩ =
      (⟨n1 - (n3 - 1) - 1, Except.ok (), false⟩, none) := by
    simp [pollStep, hx]
  have hp2 : pollStep ⟨n2 - (n3 - 1), Except.ok (), decide (n2 ≤ n3 - 1)⟩ =
      (advB 1 ⟨n2 - (n3 - 1), Except.ok (), decide (n2 ≤ n3 - 1)⟩, none) := by
    apply pollStep_eq
    · constructor
      · intro hf
        have hle : n2 ≤ n3 - 1 := of_decide_eq_true hf
        exact ⟨show n2 - (n3 - 1) = 0 by omega, rfl⟩
      · intro hf
        show 1 ≤ n2 - (n3 - 1)
        have := of_decide_eq_false hf
        omega
    · intro e' he'
      exact nomatch he'
  have hp3 : pollStep ⟨1, Except.error e, false⟩ =
      (⟨0, Except.error e, true⟩, some e) := by
    simp [pollStep]
  have hround : pollRound ⟨⟨n1 - (n3 - 1), Except.ok (), false⟩,
      ⟨n2 - (n3 - 1), Except.ok (), decide (n2 ≤ n3 - 1)⟩,
      ⟨1, Except.error e, false⟩⟩ =
      (⟨⟨n1 - (n3 - 1) - 1, Except.ok (), false⟩,
        advB 1 ⟨n2 - (n3 - 1), Except.ok (), decide (n2 ≤ n3 - 1)⟩,
        ⟨0, Except.error e, true⟩⟩, some (.error e)) := by
    simp only [pollRound, hp1, hp2, hp3]
  have hfu : n3 + m = (n3 - 1) + (m + 1) := by omega
  rw [hfu, try_join_split (n3 - 1) (m + 1) _ _ hA,
    try_join_round_some m _ _ _ hround]
  refine ⟨rfl, ?_⟩
  have hrr : n1 - (n3 - 1) - 1 = n1 - n3 := by omega
  rw [hrr]

/-- C4, counterexample to the claim as stated: with the stdout drain
needing three polls and the wait failing on its first poll, the join
returns the wait failure after the first round while the stdout drain is
neither finished nor drained (two polls still outstanding): the call
completes before all three futures have finished, and the remaining
futures are dropped rather than let drain. -/
theorem join_completes_before_drain :
    (try_join 5 (initJoin 3 (.ok ()) 1 (.ok ()) 1
        (.error "failed to wait for process: boom"))).2 =
      some (.error "failed to wait for process: boom") ∧
    (try_join 5 (initJoin 3 (.ok ()) 1 (.ok ()) 1
        (.error "failed to wait for process: boom"))).1.b1.fin = false ∧
    (try_join 5 (initJoin 3 (.ok ()) 1 (.ok ()) 1
        (.error "failed to wait for process: boom"))).1.b1.rem = 2 :=
  ⟨rfl, rfl, rfl⟩

/-- C4, amended: the three joined futures of a run_command call are
polled concurrently, never sequentially — every uneventful round polls
each unfinished branch exactly once, so after k rounds each has
progressed by k polls. When all three succeed the call completes only
once all three have finished, in exactly the rounds the slowest needs.
When a branch fails, the join returns that first failure immediately and
the unfinished branches are dropped, not drained. -/
theorem join_concurrent_spec :
    (∀ (n1 n2 n3 k : Nat) (r1 r2 r3 : Except String Unit),
      1 ≤ n1 → 1 ≤ n2 → 1 ≤ n3 →
      (∀ e, r1 = .error e → k < n1) → (∀ e, r2 = .error e → k < n2) →
      (∀ e, r3 = .error e → k < n3) → ¬(n1 ≤ k ∧ n2 ≤ k ∧ n3 ≤ k) →
      try_join k (initJoin n1 r1 n2 r2 n3 r3) =
        (⟨⟨n1 - k, r1, decide (n1 ≤ k)⟩, ⟨n2 - k, r2, decide (n2 ≤ k)⟩,
          ⟨n3 - k, r3, decide (n3 ≤ k)⟩⟩, none)) ∧
    (∀ n1 n2 n3 : Nat, 1 ≤ n1 → 1 ≤ n2 → 1 ≤ n3 →
      try_join (max n1 (max n2 n3))
          (initJoin n1 (.ok ()) n2 (.ok ()) n3 (.ok ())) =
        (⟨⟨0, .ok (), true⟩, ⟨0, .ok (), true⟩, ⟨0, .ok (), true⟩⟩,
          some (.ok ()))) ∧
    (∀ (n1 n2 n3 m : Nat) (e : String), 1 ≤ n3 → n3 < n1 → n3 ≤ n2 →
      (try_join (n3 + m)
          (initJoin n1 (.ok ()) n2 (.ok ()) n3 (.error e))).2 =
        some (.error e) ∧
      (try_join (n3 + m)
          (initJoin n1 (.ok ()) n2 (.ok ()) n3 (.error e))).1.b1 =
        ⟨n1 - n3, .ok (), false⟩) :=
  ⟨fun n1 n2 n3 k r1 r2 r3 h1 h2 h3 e1 e2 e3 hna =>
      join_lockstep n1 n2 n3 k r1 r2 r3 h1 h2 h3 e1 e2 e3 hna,
   fun n1 n2 n3 h1 h2 h3 => join_all_ok n1 n2 n3 h1 h2 h3,
   fun n1 n2 n3 m e h3 h13 h23 => join_first_error n1 n2 n3 m e h3 h13 h23⟩

/-- Closed instances of the join behaviour: one uneventful round
advances all three branches together; three all-succeeding branches
complete in three rounds with all finished; a wait failing in round one
ends the join at once with the stdout branch unfinished. -/
theorem join_concurrent_spec_witness :
    try_join 1 (initJoin 3 (.ok ()) 2 (.ok ()) 2 (.ok ())) =
      (⟨⟨2, .ok (), false⟩, ⟨1, .ok (), false⟩, ⟨1, .ok (), false⟩⟩,
        none) ∧
    try_join (max 3 (max 2 2)) (initJoin 3 (.ok ()) 2 (.ok ()) 2 (.ok ())) =
      (⟨⟨0, .ok (), true⟩, ⟨0, .ok (), true⟩, ⟨0, .ok (), true⟩⟩,
        some (.ok ())) ∧
    ((try_join (1 + 0) (initJoin 3 (.ok ()) 2 (.ok ()) 1
        (.error "boom"))).2 = some (.error "boom") ∧
     (try_join (1 + 0) (initJoin 3 (.ok ()) 2 (.ok ()) 1
        (.error "boom"))).1.b1 = ⟨2, .ok (), false⟩) :=
  ⟨join_concurrent_spec.1 3 2 2 1 (.ok ()) (.ok ()) (.ok ())
      (by omega) (by omega) (by omega) (fun e he => nomatch he)
      (fun e he => nomatch he) (fun e he => nomatch he) (by omega),
   join_concurrent_spec.2.1 3 2 2 (by omega) (by omega) (by omega),
   join_concurrent_spec.2.2 3 2 1 0 "boom" (by omega) (by omega) (by omega)⟩

/-- The exact event sequence of the bind phase: the directory creation
(when the path has a non-empty parent) comes first, then — unless
creation failed — the stale-file removal when a file exists, then —
unless removal failed — the bind. -/
lemma bind_socket_trace (path : Path) (w : ServeWorld) :
    (bind_socket path w).2 =
      (if path.dropLast = [] then []
        else [ServerEv.createDirAll path.dropLast]) ++
      (if path.dropLast ≠ [] ∧ w.createDirRes ≠ .ok () then []
       else (if w.fileExists = true then [ServerEv.removeStale path]
          else []) ++
         (if w.fileExists = true ∧ w.removeRes ≠ .ok () then []
          else [ServerEv.bindListener path])) := by
  rcases w with ⟨cd, fe, rr, br, so, cr⟩
  rcases cd with ecd | ⟨⟩ <;> rcases rr with err | ⟨⟩ <;>
    rcases br with ebr | ⟨⟩ <;> cases fe <;>
      by_cases hp : path.dropLast = [] <;>
        simp_all [bind_socket, remove_phase, bind_listener_phase]

/-- The bind phase fails exactly when directory creation was needed and
failed, or removal was needed and failed, or the bind itself failed. -/
lemma bind_socket_err (path : Path) (w : ServeWorld) :
    ((∃ msg, (bind_socket path w).1 = .error msg) ↔
      (path.dropLast ≠ [] ∧ w.createDirRes ≠ .ok ()) ∨
      ((path.dropLast = [] ∨ w.createDirRes = .ok ()) ∧
        w.fileExists = true ∧ w.removeRes ≠ .ok ()) ∨
      ((path.dropLast = [] ∨ w.createDirRes = .ok ()) ∧
        (w.fileExists = false ∨ w.removeRes = .ok ()) ∧
        w.bindRes ≠ .ok ())) := by
  rcases w with ⟨cd, fe, rr, br, so, cr⟩
  rcases cd with ecd | ⟨⟩ <;> rcases rr with err | ⟨⟩ <;>
    rcases br with ebr | ⟨⟩ <;> cases fe <;>
      by_cases hp : path.dropLast = [] <;>
        simp_all [bind_socket, remove_phase, bind_listener_phase]

/-- The bind phase never reads the cleanup removal outcome. -/
lemma bind_socket_cr_irrel (path : Path) (w : ServeWorld)
    (r : Except String Unit) :
    bind_socket path { w with cleanupRemoveRes := r } = bind_socket path w := by
  rcases w with ⟨cd, fe, rr, br, so, cr⟩
  rfl

/-- The server run never reads the cleanup removal outcome: the guard
discards it. -/
lemma run_server_cr_irrel (path : Path) (w : ServeWorld)
    (r : Except String Unit) :
    run_server path { w with cleanupRemoveRes := r } = run_server path w := by
  rcases w with ⟨cd, fe, rr, br, so, cr⟩
  rfl

/-- C5: the startup bind sequence first creates the missing parent
directories (when the path has a non-empty parent), then removes any
pre-existing file at the path as a stale socket, then binds the listener;
a present stale file whose removal succeeds leads to a successful bind,
replaced silently; and a setup error occurs exactly on a
directory-creation, removal, or bind failure. -/
theorem bind_sequence_spec :
    ∀ (path : Path) (w : ServeWorld),
      (bind_socket path w).2 =
        (if path.dropLast = [] then []
          else [ServerEv.createDirAll path.dropLast]) ++
        (if path.dropLast ≠ [] ∧ w.createDirRes ≠ .ok () then []
         else (if w.fileExists = true then [ServerEv.removeStale path]
            else []) ++
           (if w.fileExists = true ∧ w.removeRes ≠ .ok () then []
            else [ServerEv.bindListener path])) ∧
      (w.fileExists = true → w.removeRes = .ok () → w.bindRes = .ok () →
        (path.dropLast = [] ∨ w.createDirRes = .ok ()) →
        (bind_socket path w).1 = .ok ()) ∧
      ((∃ msg, (bind_socket path w).1 = .error msg) ↔
        (path.dropLast ≠ [] ∧ w.createDirRes ≠ .ok ()) ∨
        ((path.dropLast = [] ∨ w.createDirRes = .ok ()) ∧
          w.fileExists = true ∧ w.removeRes ≠ .ok ()) ∨
        ((path.dropLast = [] ∨ w.createDirRes = .ok ()) ∧
          (w.fileExists = false ∨ w.removeRes = .ok ()) ∧
          w.bindRes ≠ .ok ())) := by
  intro path w
  refine ⟨bind_socket_trace path w, ?_, bind_socket_err path w⟩
  intro hfe hrr hbr hcd
  rcases w with ⟨cd, fe, rr, br, so, cr⟩
  by_cases hp : path.dropLast = [] <;>
    rcases hcd with hcd | hcd <;>
      simp_all [bind_socket, remove_phase, bind_listener_phase]

/-- Closed instance of the bind sequence: with a stale file present and
all operations succeeding, the server creates the parent directory,
removes the stale file, binds, and reports success. -/
theorem bind_sequence_spec_witness :
    (bind_socket ["", "tmp", "codex-grpc.sock"] exampleServeWorld).2 =
      [ServerEv.createDirAll ["", "tmp"],
       ServerEv.removeStale ["", "tmp", "codex-grpc.sock"],
       ServerEv.bindListener ["", "tmp", "codex-grpc.sock"]] ∧
    (bind_socket ["", "tmp", "codex-grpc.sock"] exampleServeWorld).1 =
      .ok () := by
  have h := bind_sequence_spec ["", "tmp", "codex-grpc.sock"] exampleServeWorld
  exact ⟨h.1, h.2.1 rfl rfl rfl (Or.inr rfl)⟩

/-- C6: after a successful bind of a non-empty socket path, every exit
path of the server — normal return, server error, forced cancellation of
the serve future — removes the socket file exactly once, as the final
action, and the outcome of that removal (for instance the file already
being absent) affects neither the result nor the events. -/
theorem socket_cleanup_spec :
    ∀ (path : Path) (w : ServeWorld), path ≠ [] →
      (bind_socket path w).1 = .ok () →
      (run_server path w).2.count (ServerEv.cleanupRemove path) = 1 ∧
      (run_server path w).2.getLast? = some (ServerEv.cleanupRemove path) ∧
      ∀ r, run_server path { w with cleanupRemoveRes := r } =
        run_server path w := by
  intro path w hpath hok
  rcases hb : bind_socket path w with ⟨res, evs⟩
  have hres : res = Except.ok () := by rw [hb] at hok; exact hok
  subst hres
  have hcnt : evs.count (ServerEv.cleanupRemove path) = 0 := by
    have h0 : (bind_socket path w).2.count (ServerEv.cleanupRemove path)
        = 0 := by
      rw [bind_socket_trace path w]
      split_ifs <;> simp
    rw [hb] at h0
    exact h0
  have htr : (run_server path w).2 =
      evs ++ [ServerEv.serveDone] ++ [ServerEv.cleanupRemove path] ∨
      (run_server path w).2 = evs ++ [ServerEv.cleanupRemove path] := by
    unfold run_server
    rw [hb]
    cases hso : w.serveOutcome with
    | ok => left; simp [if_neg hpath]
    | err e => left; simp [if_neg hpath]
    | cancelled => right; simp [if_neg hpath]
  refine ⟨?_, ?_, fun r => run_server_cr_irrel path w r⟩
  · rcases htr with h | h <;> rw [h] <;>
      simp [List.count_append, hcnt, List.count_cons]
  · rcases htr with h | h <;> rw [h] <;>
      simp [List.getLast?_concat]

/-- Closed instance of the cleanup guarantee: with a stale file present,
all operations succeeding, and a normal serve return, the socket file is
removed exactly once at the end, and a failing cleanup removal changes
nothing. -/
theorem socket_cleanup_spec_witness :
    (run_server ["", "tmp", "codex-grpc.sock"] exampleServeWorld).2.count
      (ServerEv.cleanupRemove ["", "tmp", "codex-grpc.sock"]) = 1 ∧
    run_server ["", "tmp", "codex-grpc.sock"]
        { exampleServeWorld with cleanupRemoveRes := Except.error "gone" } =
      run_server ["", "tmp", "codex-grpc.sock"] exampleServeWorld := by
  have h := socket_cleanup_spec ["", "tmp", "codex-grpc.sock"]
    exampleServeWorld (by simp) rfl
  exact ⟨h.1, h.2.2 (Except.error "gone")⟩

end CodexGrpc
